import Mathlib

/-!
Verification of the RAG chat application against its specification.

The repository snapshot contains the frontend TypeScript
(`src/frontend/src/services/statelessApi.ts`, the API factory, the
`PDFUpload` and `ChatInterface` components and the shared API types).
Those are embedded directly.  The backend pipeline components (chunker,
embedder, vector index/retriever, session store, answer synthesizer) are
not present in the snapshot — only their configuration, callers and HTTP
documentation are — so they are modelled from the specification; every
such definition carries a doc comment starting with `Modelled from the
spec:`.

Client-side wire data (SSE lines) is represented as `List Char`, with the
JavaScript string primitives used by the client (`split`, `trim`,
`startsWith`, `slice`) translated to executable list functions, so that
concrete runs of the stream-reading loop can be evaluated inside proofs.
-/

namespace RagChat

-- ===== Definitions =====

/-- Modelled from the spec: the Chunker component is absent from the
repository snapshot (only its `CHUNK_SIZE`/`CHUNK_OVERLAP` configuration
appears, in the env files).  Per spec §4.1 a page's text is sliced into
windows of `cs` characters whose start offsets advance by
`step = cs - ov` per window; the final window may be shorter than `cs`
and is kept as-is.  `step = 0` corresponds to the configuration error
`ov ≥ cs`, which the chunk contract rejects before slicing; it yields no
windows here. -/
def chunkWindows (cs step : ℕ) (l : List Char) : List (List Char) :=
  if _h1 : step = 0 then []
  else if _h2 : l.length ≤ cs then [l]
  else l.take cs :: chunkWindows cs step (l.drop step)
termination_by l.length
decreasing_by
  simp only [List.length_drop]
  omega

/-- Modelled from the spec: per-page chunking.  Empty pages produce zero
chunks (spec §4.1); otherwise the page text is sliced into windows. -/
def chunkPage (text : String) (cs ov : ℕ) : List String :=
  if text = "" then [] else (chunkWindows cs (cs - ov) text.toList).map String.mk

/-- Modelled from the spec: the immutable retrieval unit (spec §3).  The
serialized stateless payload in the source (`ProcessedPDF.chunk_metadata`
in `statelessApi.ts`) identifies a chunk by its text, page number, index
within the page and per-page total; chunk identity is its ordinal. -/
structure Chunk where
  text : String
  page_number : ℕ
  ordinal_index : ℕ
  total_chunks : ℕ
deriving DecidableEq

/-- Modelled from the spec: dot product of two embedding vectors. -/
def dotProduct (v w : List ℝ) : ℝ :=
  (List.zipWith (fun a b => a * b) v w).sum

/-- Modelled from the spec: Euclidean norm of an embedding vector. -/
noncomputable def vecNorm (v : List ℝ) : ℝ := Real.sqrt (dotProduct v v)

/-- Modelled from the spec: cosine similarity (spec §4.3) — dot product
divided by the product of the vector norms; a zero-norm vector yields
similarity 0 against everything rather than dividing by zero. -/
noncomputable def cosineSim (q v : List ℝ) : ℝ :=
  if vecNorm q = 0 ∨ vecNorm v = 0 then 0
  else dotProduct q v / (vecNorm q * vecNorm v)

/-- Modelled from the spec: relevance scores lie in `[0,1]` after clamping
(spec glossary). -/
noncomputable def clamp01 (x : ℝ) : ℝ := max 0 (min 1 x)

/-- A candidate chunk tagged with its similarity score and its original
ordinal position in the candidate sequence. -/
structure Ranked where
  idx : ℕ
  chunk : Chunk
  score : ℝ

/-- Modelled from the spec: the retrieval ordering — descending similarity,
with ties on equal similarity broken by preserving the original candidate
ordinal (the stable sort of spec §4.3). -/
def rankRel (a b : Ranked) : Prop :=
  b.score < a.score ∨ (a.score = b.score ∧ a.idx ≤ b.idx)

noncomputable instance : DecidableRel rankRel :=
  fun _ _ => instDecidableOr

instance : IsTotal Ranked rankRel where
  total := by
    intro a b
    rcases lt_trichotomy a.score b.score with h | h | h
    · exact Or.inr (Or.inl h)
    · rcases Nat.le_total a.idx b.idx with hi | hi
      · exact Or.inl (Or.inr ⟨h, hi⟩)
      · exact Or.inr (Or.inr ⟨h.symm, hi⟩)
    · exact Or.inl (Or.inl h)

instance : IsTrans Ranked rankRel where
  trans := by
    intro a b c hab hbc
    rcases hab with h1 | ⟨h1e, h1i⟩ <;> rcases hbc with h2 | ⟨h2e, h2i⟩
    · exact Or.inl (by linarith)
    · exact Or.inl (by linarith)
    · exact Or.inl (by linarith)
    · exact Or.inr ⟨by linarith, le_trans h1i h2i⟩

/-- Modelled from the spec: score every candidate against the query and
sort by descending similarity with the stable ordinal tie-break. -/
noncomputable def rankCandidates (q : List ℝ)
    (cands : List (Chunk × List ℝ)) : List Ranked :=
  List.insertionSort rankRel
    (cands.enum.map (fun p => Ranked.mk p.1 p.2.1 (clamp01 (cosineSim q p.2.2))))

/-- Modelled from the spec: `RetrievedChunk` (spec §3), a transient result
of one retrieval call. -/
structure RetrievedChunk where
  chunk : Chunk
  relevance_score : ℝ

/-- Modelled from the spec: `retrieve` (spec §4.3) — the top-`k` candidates
by descending cosine similarity, with scores; a `k` larger than the
candidate count is clamped to it. -/
noncomputable def retrieve (q : List ℝ) (cands : List (Chunk × List ℝ))
    (k : ℕ) : List RetrievedChunk :=
  ((rankCandidates q cands).take k).map
    (fun r => RetrievedChunk.mk r.chunk r.score)

/-- Modelled from the spec: `DocumentSession` (spec §3). -/
structure DocumentSession where
  document_id : String
  chunks : List Chunk
  embeddings : List (List ℝ)
  filename : String
  page_count : ℕ

/-- Modelled from the spec: session construction enforces the alignment
invariant `len(chunks) == len(embeddings)`; violating it is a fatal
construction error, not a runtime check during retrieval (spec §3). -/
def mkDocumentSession (did : String) (chunks : List Chunk)
    (embeds : List (List ℝ)) (fname : String) (pc : ℕ) :
    Except String DocumentSession :=
  if chunks.length = embeds.length then
    Except.ok (DocumentSession.mk did chunks embeds fname pc)
  else Except.error "chunk count does not match embedding count"

/-- Modelled from the spec: question-time retrieval over a session's
chunk/vector pairs; the alignment invariant is not re-checked here. -/
noncomputable def sessionRetrieve (s : DocumentSession) (q : List ℝ)
    (k : ℕ) : List RetrievedChunk :=
  retrieve q (s.chunks.zip s.embeddings) k

/-- Per-chunk metadata of the serialized stateless payload, as declared in
the source (`ProcessedPDF.chunk_metadata` in `statelessApi.ts`). -/
structure ChunkMeta where
  page : ℕ
  chunk_index : ℕ
  total_chunks : ℕ
deriving DecidableEq

/-- Modelled from the spec: the full serialized `DocumentSession` handed to
the caller in stateless mode (spec §6): chunk texts, embeddings, chunk
metadata. -/
structure SessionPayload where
  chunks : List String
  embeddings : List (List ℝ)
  chunk_metadata : List ChunkMeta

/-- Modelled from the spec: serialization of a session for stateless
mode. -/
def serializeSession (s : DocumentSession) : SessionPayload :=
  SessionPayload.mk (s.chunks.map Chunk.text) s.embeddings
    (s.chunks.map
      (fun c => ChunkMeta.mk c.page_number c.ordinal_index c.total_chunks))

/-- Modelled from the spec: pure deserialization of the payload's chunks
(the stateless-mode `load` of spec §4.4 has no backing store). -/
def payloadChunks (p : SessionPayload) : List Chunk :=
  List.zipWith (fun t m => Chunk.mk t m.page m.chunk_index m.total_chunks)
    p.chunks p.chunk_metadata

/-- Modelled from the spec: stateless-mode retrieval — the caller resupplies
the entire payload, which is deserialized and queried. -/
noncomputable def statelessModeRetrieve (p : SessionPayload) (q : List ℝ)
    (k : ℕ) : List RetrievedChunk :=
  retrieve q ((payloadChunks p).zip p.embeddings) k

/-- Modelled from the spec: server-resident mode — sessions live in a
process-wide mapping from document id; retrieval loads the session by
id. -/
noncomputable def serverModeRetrieve (store : String → Option DocumentSession)
    (did : String) (q : List ℝ) (k : ℕ) : Option (List RetrievedChunk) :=
  (store did).map (fun s => retrieve q (s.chunks.zip s.embeddings) k)

/-- A server store holding exactly one session under its document id. -/
def singletonStore (s : DocumentSession) : String → Option DocumentSession :=
  fun i => if i = s.document_id then some s else none

/-- `ChatSource` from the frontend type declarations (`types/api.ts`):
page, chunk id, excerpt text, relevance score.  JSON numbers are modelled
as rationals. -/
structure ChatSource where
  page : ℕ
  chunk_id : String
  content : String
  relevance_score : ℚ
deriving DecidableEq

/-- The event type tags of `StreamEvent` (`statelessApi.ts`). -/
inductive StreamEventType where
  | content
  | sources
  | error
deriving DecidableEq

/-- `StreamEvent` from `statelessApi.ts`: a typed server-sent event with
optional content text and optional sources list. -/
structure StreamEvent where
  type : StreamEventType
  content : Option String
  sources : Option (List ChatSource)
deriving DecidableEq

/-- A call the stream reader makes back into its caller: `onMessage`,
`onComplete` or `onError`. -/
inductive Callback where
  | message (e : StreamEvent)
  | complete
  | errorCall (msg : String)
deriving DecidableEq

/-- The JavaScript `chunk.split('\n')` used by the stream reader: segments
between separators, keeping empty segments. -/
def splitOnNewline : List Char → List (List Char)
  | [] => [[]]
  | c :: cs =>
    if c = '\n' then [] :: splitOnNewline cs
    else
      match splitOnNewline cs with
      | [] => [[c]]
      | w :: ws => (c :: w) :: ws

/-- The JavaScript `line.trim()` used by the stream reader: whitespace
removed from both ends. -/
def trimChars (l : List Char) : List Char :=
  ((l.dropWhile Char.isWhitespace).reverse.dropWhile Char.isWhitespace).reverse

/-- Result of handling one SSE line. -/
inductive LineResult where
  | event (e : StreamEvent)
  | doneMark
  | skip
deriving DecidableEq

/-- One iteration of the per-line loop in `StatelessAPIClient.streamChat`
(`statelessApi.ts`): trim the line; if it starts with `data: `, slice off
the first 6 characters; the payload `[DONE]` is the terminal marker; an
empty payload is skipped; any other payload is JSON-parsed into a
`StreamEvent`, a parse failure being caught and skipped.  JSON parsing is
a platform primitive and is passed in as `parse`. -/
def lineResult (parse : List Char → Option StreamEvent) (line : List Char) :
    LineResult :=
  let t := trimChars line
  if "data: ".toList.isPrefixOf t then
    let data := t.drop 6
    if data = "[DONE]".toList then LineResult.doneMark
    else if data = [] then LineResult.skip
    else
      match parse data with
      | some e => LineResult.event e
      | none => LineResult.skip
  else LineResult.skip

/-- The per-received-chunk line loop: process each line in order; a
`[DONE]` marker returns immediately, dropping any later lines of the
chunk.  Returns the parsed events plus whether the terminal marker was
seen. -/
def processLines (parse : List Char → Option StreamEvent) :
    List (List Char) → List StreamEvent × Bool
  | [] => ([], false)
  | l :: ls =>
    match lineResult parse l with
    | LineResult.doneMark => ([], true)
    | LineResult.event e =>
      let r := processLines parse ls
      (e :: r.1, r.2)
    | LineResult.skip => processLines parse ls

/-- Processing of one received chunk: split on newlines, then the line
loop. -/
def processChunk (parse : List Char → Option StreamEvent)
    (chunk : List Char) : List StreamEvent × Bool :=
  processLines parse (splitOnNewline chunk)

/-- The stream-reading loop of `StatelessAPIClient.streamChat`
(`statelessApi.ts` lines 183-224): repeatedly await `reader.read()`.
`abortAfter = some n` means the caller's abort is observed at the
`(n+1)`-th read — the `await` of `read` is the loop's only suspension
point, so cooperative cancellation takes effect exactly there; the
rejected read is caught, and because the signal is aborted no further
callback (not even `onError`) is made.  Each successful read delivers the
chunk's parsed events via `onMessage` in order; a `[DONE]` payload or the
end of the stream calls `onComplete`. -/
def runStream (parse : List Char → Option StreamEvent) :
    List (List Char) → Option ℕ → List Callback
  | _, some 0 => []
  | [], _ => [Callback.complete]
  | c :: rest, ab =>
    let r := processChunk parse c
    let msgs := r.1.map Callback.message
    if r.2 then msgs ++ [Callback.complete]
    else msgs ++ runStream parse rest (ab.map Nat.pred)

/-- Modelled from the spec: the Answer Synthesizer's successful event
sequence (spec §4.5/§6) — one `content` event per backend token in arrival
order, then exactly one `sources` event carrying the retrieved-chunk
list; the completion marker follows on the wire as the `[DONE]`
payload. -/
def synthEvents (tokens : List String) (srcs : List ChatSource) :
    List StreamEvent :=
  tokens.map (fun t => StreamEvent.mk StreamEventType.content (some t) none)
    ++ [StreamEvent.mk StreamEventType.sources none (some srcs)]

/-- One SSE wire chunk carrying one data payload line. -/
def sseChunk (payload : List Char) : List Char :=
  "data: ".toList ++ payload ++ ['\n']

/-- Modelled from the spec: the wire form of a successful streamed answer —
each event on its own `data:` line (the JSON encoding is passed in as
`encode`), terminated by the `[DONE]` marker. -/
def sseStream (encode : StreamEvent → List Char)
    (events : List StreamEvent) : List (List Char) :=
  events.map (fun e => sseChunk (encode e)) ++ [sseChunk "[DONE]".toList]

/-- Two concrete retrieved sources for demonstration runs. -/
def demoSources : List ChatSource :=
  [ChatSource.mk 1 "chunk_0" "first excerpt" 1,
   ChatSource.mk 2 "chunk_3" "second excerpt" 0]

/-- Concrete content event carrying the token "A". -/
def evContentA : StreamEvent :=
  StreamEvent.mk StreamEventType.content (some "A") none

/-- Concrete content event carrying the token "B". -/
def evContentB : StreamEvent :=
  StreamEvent.mk StreamEventType.content (some "B") none

/-- Concrete content event carrying the token "C". -/
def evContentC : StreamEvent :=
  StreamEvent.mk StreamEventType.content (some "C") none

/-- Concrete sources event carrying the demonstration sources. -/
def evSources : StreamEvent :=
  StreamEvent.mk StreamEventType.sources none (some demoSources)

/-- A concrete wire encoding for the demonstration events. -/
def demoEncode (e : StreamEvent) : List Char :=
  if e = evContentA then "evA".toList
  else if e = evContentB then "evB".toList
  else if e = evContentC then "evC".toList
  else "evS".toList

/-- The concrete parse function inverting `demoEncode`. -/
def demoParse (s : List Char) : Option StreamEvent :=
  if s = "evA".toList then some evContentA
  else if s = "evB".toList then some evContentB
  else if s = "evC".toList then some evContentC
  else if s = "evS".toList then some evSources
  else none

/-- The role of a conversation turn (`types/api.ts`). -/
inductive ChatRole where
  | user
  | assistant
deriving DecidableEq

/-- `ChatMessage` from the frontend types: role, content, optional sources
attached to assistant turns. -/
structure ChatMessage where
  role : ChatRole
  content : String
  sources : Option (List ChatSource)
deriving DecidableEq

/-- `ProcessedPDF` from `statelessApi.ts`: the payload retained by the
stateless client after upload. -/
structure ProcessedPDF where
  file_id : String
  filename : String
  page_count : ℕ
  chunk_count : ℕ
  chunks : List String
  embeddings : List (List ℚ)
  chunk_metadata : List ChunkMeta
deriving DecidableEq

/-- `StatelessChatRequest` from `statelessApi.ts`: the body of a stateless
question call — the full retained payload is resupplied with every
request. -/
structure StatelessChatRequest where
  message : String
  chunks : List String
  embeddings : List (List ℚ)
  chunk_metadata : List ChunkMeta
  history : List ChatMessage
deriving DecidableEq

/-- The client's `storedPDFData` map, looked up by file id. -/
def lookupStored : List (String × ProcessedPDF) → String → Option ProcessedPDF
  | [], _ => none
  | p :: rest, fid => if p.1 = fid then some p.2 else lookupStored rest fid

/-- The session-data-missing error message of `statelessApi.ts`. -/
def sessionMissingMsg : String := "PDF data not found. Please re-upload the PDF."

/-- `StatelessAPIClient.sendMessage` (`statelessApi.ts` lines 107-135):
look up the retained payload; a missing payload throws locally — the
errored call never reaches the network layer, which the `Except.error`
result models; otherwise the request carrying the complete payload and
the history is issued. -/
def sendMessageModel (stored : List (String × ProcessedPDF))
    (fid msg : String) (history : List ChatMessage) :
    Except String StatelessChatRequest :=
  match lookupStored stored fid with
  | none => Except.error sessionMissingMsg
  | some pdf => Except.ok
      (StatelessChatRequest.mk msg pdf.chunks pdf.embeddings
        pdf.chunk_metadata history)

/-- `StatelessAPIClient.streamChat` request construction (`statelessApi.ts`
lines 137-160): the same guard — a missing payload reports the error via
`onError` and returns a no-op abort function without opening the stream;
otherwise the same full-payload request body is posted. -/
def streamChatRequestModel (stored : List (String × ProcessedPDF))
    (fid msg : String) (history : List ChatMessage) :
    Except String StatelessChatRequest :=
  match lookupStored stored fid with
  | none => Except.error sessionMissingMsg
  | some pdf => Except.ok
      (StatelessChatRequest.mk msg pdf.chunks pdf.embeddings
        pdf.chunk_metadata history)

/-- Outcome of the server-side session load. -/
inductive LoadOutcome where
  | loaded (chunks : List String) (embeddings : List (List ℚ))
      (meta : List ChunkMeta)
  | notFound
deriving DecidableEq

/-- Modelled from the spec: the stateless-mode server `load` is a pure
deserialization of the request payload with no backing store; `NotFound`
is never raised here (spec §4.4). -/
def statelessServerLoad (req : StatelessChatRequest) : LoadOutcome :=
  LoadOutcome.loaded req.chunks req.embeddings req.chunk_metadata

/-- The object returned by `StatelessAPIClientWrapper.getFileStatus`; the
`processed_at` timestamp is `new Date().toISOString()`, supplied here as
`now`. -/
structure FileStatusResult where
  file_id : String
  status : String
  filename : String
  page_count : ℕ
  chunk_count : ℕ
  processed_at : String
deriving DecidableEq

/-- `StatelessAPIClientWrapper.getFileStatus` (api factory source, lines
306-328): total in the file id — a missing payload yields a fabricated
completed status with filename "Document" and zero counts; a stored
payload yields its own filename and counts. -/
def getFileStatusModel (stored : List (String × ProcessedPDF))
    (fid now : String) : FileStatusResult :=
  match lookupStored stored fid with
  | none => FileStatusResult.mk fid "completed" "Document" 0 0 now
  | some pdf => FileStatusResult.mk fid "completed" pdf.filename
      pdf.page_count pdf.chunk_count now

/-- A concrete stored payload for witnesses. -/
def demoPDF : ProcessedPDF :=
  ProcessedPDF.mk "f1" "paper.pdf" 2 3 ["alpha", "beta", "gamma"]
    [[1, 0], [0, 1], [1, 1]]
    [ChunkMeta.mk 1 0 2, ChunkMeta.mk 1 1 2, ChunkMeta.mk 2 0 1]

/-- A concrete stateless chat request for witnesses. -/
def demoRequest : StatelessChatRequest :=
  StatelessChatRequest.mk "q" demoPDF.chunks demoPDF.embeddings
    demoPDF.chunk_metadata []

/-- A file offered for upload: the browser-declared MIME type, byte size
and name (the `File` fields read by `PDFUpload.handleFileUpload`). -/
structure UploadFile where
  type : String
  size : ℕ
  name : String
deriving DecidableEq

/-- Outcome of `PDFUpload.handleFileUpload`: either a reported error (no
upload request issued) or the file submitted to `uploadPDF`. -/
inductive UploadOutcome where
  | err (msg : String)
  | upload (f : UploadFile)
deriving DecidableEq

/-- The 10MB upload limit of `PDFUpload.handleFileUpload`. -/
def maxUploadSize : ℕ := 10 * 1024 * 1024

/-- `PDFUpload.handleFileUpload` (component source, lines 69-115): requires
an API key, then validates that the declared type is `application/pdf`,
then that the size does not exceed 10MB; only then is the upload request
issued. -/
def handleFileUpload (apiKey : Option String) (f : UploadFile) :
    UploadOutcome :=
  match apiKey with
  | none => UploadOutcome.err "API key is required"
  | some _ =>
    if f.type ≠ "application/pdf" then
      UploadOutcome.err "Please select a PDF file"
    else if f.size > maxUploadSize then
      UploadOutcome.err "File size must be less than 10MB"
    else UploadOutcome.upload f

/-- The request body `ChatInterface.handleSubmit` passes to `streamChat`:
file id, message, history. -/
structure ChatRequest where
  file_id : String
  message : String
  history : List ChatMessage
deriving DecidableEq

/-- The `ChatInterface` component state relevant to the chat flow. -/
structure ChatState where
  messages : List ChatMessage
  isStreaming : Bool
  currentSources : List ChatSource
  errorMsg : Option String
deriving DecidableEq

/-- JavaScript `input.trim()`, in executable form. -/
def jsTrim (s : String) : String := String.mk (trimChars s.toList)

/-- `ChatInterface.handleSubmit` (component source, lines 30-61): a blank
input, missing API key or in-flight stream is a no-op; otherwise the user
turn and an empty assistant turn (`sources: []`) are appended to the
message state, streaming starts, and `streamChat` is called with
`history` equal to the message list from before the two appends — the
in-flight turn is not part of the history sent. -/
def handleSubmit (fid : String) (apiKey : Option String) (input : String)
    (st : ChatState) : ChatState × Option ChatRequest :=
  if jsTrim input = "" ∨ apiKey = none ∨ st.isStreaming then (st, none)
  else
    (ChatState.mk
      (st.messages ++ [ChatMessage.mk ChatRole.user (jsTrim input) none,
        ChatMessage.mk ChatRole.assistant "" (some [])])
      true [] none,
     some (ChatRequest.mk fid (jsTrim input) st.messages))

/-- The in-place update of the trailing list element performed by the
`onMessage` handler (`newMessages[newMessages.length - 1]`). -/
def updateLast (f : ChatMessage → ChatMessage) :
    List ChatMessage → List ChatMessage
  | [] => []
  | m :: rest => if rest.isEmpty then [f m] else m :: updateLast f rest

/-- The `onMessage` handler of `ChatInterface.handleSubmit` (lines 63-86):
`content` events append their text to the trailing assistant message;
the `sources` event records the source list on the state and on the
trailing assistant message; an `error` event sets the error banner. -/
def handleEvent (st : ChatState) (e : StreamEvent) : ChatState :=
  match e.type with
  | StreamEventType.content =>
    ChatState.mk
      (updateLast (fun m => if m.role = ChatRole.assistant
          then ChatMessage.mk m.role (m.content ++ (e.content.getD "")) m.sources
          else m) st.messages)
      st.isStreaming st.currentSources st.errorMsg
  | StreamEventType.sources =>
    ChatState.mk
      (updateLast (fun m => if m.role = ChatRole.assistant
          then ChatMessage.mk m.role m.content e.sources
          else m) st.messages)
      st.isStreaming (e.sources.getD []) st.errorMsg
  | StreamEventType.error =>
    ChatState.mk st.messages st.isStreaming st.currentSources
      (some (e.content.getD "An error occurred"))

/-- A question's stream events folded over the component state. -/
def runEvents (st : ChatState) (es : List StreamEvent) : ChatState :=
  es.foldl handleEvent st

/-- The `onComplete` handler: streaming stops; the message list is left as
built up by the events. -/
def completeQuestion (st : ChatState) : ChatState :=
  ChatState.mk st.messages false st.currentSources st.errorMsg

/-- Concatenation of the streamed tokens, the answer text accumulated by
the content events. -/
def concatTokens : List String → String
  | [] => ""
  | t :: ts => t ++ concatTokens ts

-- ===== Theorems =====

/-- Helper: the window at index `i` is the slice of the page starting at
offset `i * step` and extending for at most `cs` characters. -/
theorem chunkWindows_getElem (cs step : ℕ) (l : List Char) (i : ℕ)
    (h : i < (chunkWindows cs step l).length) :
    (chunkWindows cs step l)[i]? = some ((l.drop (i * step)).take cs) := by
  induction l using chunkWindows.induct cs step generalizing i with
  | case1 l hs =>
    rw [chunkWindows] at h
    simp [hs] at h
  | case2 l hs hle =>
    rw [chunkWindows] at h ⊢
    simp only [dif_neg hs, dif_pos hle] at h ⊢
    simp only [List.length_singleton] at h
    interval_cases i
    simp [List.take_of_length_le hle]
  | case3 l hs hle ih =>
    rw [chunkWindows] at h ⊢
    simp only [dif_neg hs, dif_neg hle] at h ⊢
    match i with
    | 0 => simp
    | (j+1) =>
      simp only [List.getElem?_cons_succ, List.length_cons,
        Nat.add_lt_add_iff_right] at h ⊢
      rw [ih _ h, List.drop_drop]
      congr 3
      ring

/-- Helper: every window except possibly the last has length exactly
`cs`. -/
theorem chunkWindows_full_length (cs step : ℕ) (l : List Char) (i : ℕ)
    (h : i + 1 < (chunkWindows cs step l).length) :
    ∀ w, (chunkWindows cs step l)[i]? = some w → w.length = cs := by
  induction l using chunkWindows.induct cs step generalizing i with
  | case1 l hs =>
    rw [chunkWindows] at h
    simp [hs] at h
  | case2 l hs hle =>
    rw [chunkWindows] at h
    simp only [dif_neg hs, dif_pos hle, List.length_singleton] at h
    omega
  | case3 l hs hle ih =>
    rw [chunkWindows] at h ⊢
    simp only [dif_neg hs, dif_neg hle] at h ⊢
    match i with
    | 0 =>
      intro w hw
      simp only [List.getElem?_cons_zero, Option.some.injEq] at hw
      subst hw
      simp only [List.length_take]
      simp only [List.length_cons] at h
      omega
    | (j+1) =>
      simp only [List.getElem?_cons_succ, List.length_cons,
        Nat.add_lt_add_iff_right] at h ⊢
      exact ih j h

/-- Helper: the last `ov` characters of window `i` are exactly the first
`ov` characters of window `i + 1`. -/
theorem chunkWindows_overlap (cs ov : ℕ) (hov : ov < cs) (l : List Char) (i : ℕ)
    (h : i + 1 < (chunkWindows cs (cs - ov) l).length) :
    ∀ w w', (chunkWindows cs (cs - ov) l)[i]? = some w →
      (chunkWindows cs (cs - ov) l)[i+1]? = some w' →
      w.drop (cs - ov) = w'.take ov := by
  intro w w' hw hw'
  have hi : i < (chunkWindows cs (cs - ov) l).length := Nat.lt_of_succ_lt h
  rw [chunkWindows_getElem cs (cs - ov) l i hi, Option.some.injEq] at hw
  rw [chunkWindows_getElem cs (cs - ov) l (i+1) h, Option.some.injEq] at hw'
  subst hw
  subst hw'
  rw [List.drop_take, List.drop_drop, List.take_take]
  have e1 : i * (cs - ov) + (cs - ov) = (i + 1) * (cs - ov) := by ring
  have e2 : cs - (cs - ov) = ov := by omega
  have e3 : min ov cs = ov := min_eq_left (le_of_lt hov)
  rw [e1, e2, e3]

/-- C1: with `overlap < chunk_size`, the chunk operation slices a page into
windows of length `chunk_size` whose start offsets advance by
`chunk_size - overlap`; the last `overlap` characters of window `n` reappear
at the start of window `n+1`; the final window may be shorter; and the
15-character page "ABCDEFGHIJKLMNO" with `chunk_size = 10, overlap = 3`
yields exactly the two chunks "ABCDEFGHIJ" and "HIJKLMNO", the second
starting at offset 7. -/
theorem claim_c1_chunker (cs ov : ℕ) (hov : ov < cs) (l : List Char) :
    (∀ i, i < (chunkWindows cs (cs - ov) l).length →
        (chunkWindows cs (cs - ov) l)[i]? = some ((l.drop (i * (cs - ov))).take cs))
  ∧ (∀ i, i + 1 < (chunkWindows cs (cs - ov) l).length →
        ∀ w w', (chunkWindows cs (cs - ov) l)[i]? = some w →
          (chunkWindows cs (cs - ov) l)[i+1]? = some w' →
          w.length = cs ∧ w.drop (cs - ov) = w'.take ov)
  ∧ chunkPage "ABCDEFGHIJKLMNO" 10 3 = ["ABCDEFGHIJ", "HIJKLMNO"] := by
  refine ⟨fun i hi => chunkWindows_getElem cs (cs - ov) l i hi, ?_, ?_⟩
  · intro i hi w w' hw hw'
    exact ⟨chunkWindows_full_length cs (cs - ov) l i hi w hw,
      chunkWindows_overlap cs ov hov l i hi w w' hw hw'⟩
  · rw [chunkPage, if_neg (by decide : ¬("ABCDEFGHIJKLMNO" = "")),
      chunkWindows, dif_neg (by decide : ¬(10 - 3 = 0)), dif_neg (by decide),
      chunkWindows, dif_neg (by decide : ¬(10 - 3 = 0)), dif_pos (by decide)]
    decide

/-- Witness for C1: the chunker theorem instantiated at
`chunk_size = 10, overlap = 3` and the page "ABCDEFGHIJKLMNO". -/
theorem claim_c1_chunker_witness :
    (3 < 10)
  ∧ ((∀ i, i < (chunkWindows 10 (10 - 3) "ABCDEFGHIJKLMNO".toList).length →
        (chunkWindows 10 (10 - 3) "ABCDEFGHIJKLMNO".toList)[i]? =
          some (("ABCDEFGHIJKLMNO".toList.drop (i * (10 - 3))).take 10))
    ∧ (∀ i, i + 1 < (chunkWindows 10 (10 - 3) "ABCDEFGHIJKLMNO".toList).length →
        ∀ w w', (chunkWindows 10 (10 - 3) "ABCDEFGHIJKLMNO".toList)[i]? = some w →
          (chunkWindows 10 (10 - 3) "ABCDEFGHIJKLMNO".toList)[i+1]? = some w' →
          w.length = 10 ∧ w.drop (10 - 3) = w'.take 3)
    ∧ chunkPage "ABCDEFGHIJKLMNO" 10 3 = ["ABCDEFGHIJ", "HIJKLMNO"]) :=
  ⟨by decide, claim_c1_chunker 10 3 (by decide) "ABCDEFGHIJKLMNO".toList⟩

/-- C4: a `DocumentSession` construction succeeds exactly when the chunk
and embedding sequences have equal length; every session it produces
carries exactly the given sequences and therefore satisfies the alignment
invariant, established at construction alone. -/
theorem claim_c4_alignment (did : String) (chunks : List Chunk)
    (embeds : List (List ℝ)) (fname : String) (pc : ℕ) :
    ((∃ s, mkDocumentSession did chunks embeds fname pc = Except.ok s) ↔
      chunks.length = embeds.length)
  ∧ (∀ s, mkDocumentSession did chunks embeds fname pc = Except.ok s →
      s.chunks.length = s.embeddings.length ∧ s.chunks = chunks ∧
      s.embeddings = embeds) := by
  constructor
  · constructor
    · rintro ⟨s, hs⟩
      by_contra hne
      rw [mkDocumentSession, if_neg hne] at hs
      exact Except.noConfusion hs
    · intro hlen
      exact ⟨_, by rw [mkDocumentSession, if_pos hlen]⟩
  · intro s hs
    by_cases hlen : chunks.length = embeds.length
    · rw [mkDocumentSession, if_pos hlen] at hs
      injection hs with h
      subst h
      exact ⟨hlen, rfl, rfl⟩
    · rw [mkDocumentSession, if_neg hlen] at hs
      exact Except.noConfusion hs

/-- Witness for C4: a matched construction succeeds and a mismatched one
fails, at concrete inputs. -/
theorem claim_c4_alignment_witness :
    (∃ s, mkDocumentSession "doc1" [Chunk.mk "hello" 1 0 1] [[(1:ℝ), 0]]
        "f.pdf" 1 = Except.ok s)
  ∧ ¬(∃ s, mkDocumentSession "doc1" [Chunk.mk "hello" 1 0 1] []
        "f.pdf" 1 = Except.ok s) :=
  ⟨(claim_c4_alignment "doc1" [Chunk.mk "hello" 1 0 1] [[(1:ℝ), 0]]
      "f.pdf" 1).1.mpr (by decide),
   fun h => by
     have h1 := (claim_c4_alignment "doc1" [Chunk.mk "hello" 1 0 1] []
       "f.pdf" 1).1.mp h
     simp at h1⟩

/-- Helper: the ranked candidate list is sorted under the retrieval
ordering. -/
theorem rankCandidates_sorted (q : List ℝ) (cands : List (Chunk × List ℝ)) :
    List.Pairwise rankRel (rankCandidates q cands) :=
  List.sorted_insertionSort rankRel _

/-- Helper: the original ordinals of the ranked candidates are pairwise
distinct (ranking permutes the enumeration of the candidates). -/
theorem rankCandidates_idx_nodup (q : List ℝ)
    (cands : List (Chunk × List ℝ)) :
    ((rankCandidates q cands).map Ranked.idx).Nodup := by
  have hperm := List.perm_insertionSort rankRel
    (cands.enum.map (fun p => Ranked.mk p.1 p.2.1 (clamp01 (cosineSim q p.2.2))))
  have h2 := hperm.map Ranked.idx
  rw [List.map_map] at h2
  have h3 : cands.enum.map
      (Ranked.idx ∘ (fun p => Ranked.mk p.1 p.2.1 (clamp01 (cosineSim q p.2.2))))
      = cands.enum.map Prod.fst := rfl
  rw [h3, List.enum_map_fst] at h2
  exact h2.nodup_iff.mpr (List.nodup_range _)

/-- C5: `retrieve` is deterministic — in this pure embedding two calls on
identical inputs are the same term — its results are ordered by descending
relevance score, and candidates with equal scores keep their original
ordinal order (stable sort). -/
theorem claim_c5_retrieval_determinism (q : List ℝ)
    (cands : List (Chunk × List ℝ)) (k : ℕ) :
    (retrieve q cands k = retrieve q cands k)
  ∧ List.Pairwise (fun a b => b.relevance_score ≤ a.relevance_score)
      (retrieve q cands k)
  ∧ List.Pairwise (fun a b => a.score = b.score → a.idx < b.idx)
      ((rankCandidates q cands).take k) := by
  refine ⟨rfl, ?_, ?_⟩
  · have h := (rankCandidates_sorted q cands).sublist (List.take_sublist k _)
    rw [retrieve, List.pairwise_map]
    refine h.imp ?_
    intro a b hab
    rcases hab with h1 | h1
    · exact le_of_lt h1
    · exact le_of_eq h1.1.symm
  · have h1 := (rankCandidates_sorted q cands)
    have h2 : List.Pairwise (fun a b : Ranked => a.idx ≠ b.idx)
        (rankCandidates q cands) :=
      List.pairwise_map.mp (rankCandidates_idx_nodup q cands)
    have h3 := (h1.and h2).sublist (List.take_sublist k _)
    refine h3.imp ?_
    intro a b hab heq
    rcases hab with ⟨hr | ⟨_, hle⟩, hne⟩
    · exact absurd hr (by rw [heq]; exact lt_irrefl _)
    · exact lt_of_le_of_ne hle hne

/-- Helper: deserializing the serialized chunk texts and metadata restores
the original chunk sequence. -/
theorem zipWith_rebuild (l : List Chunk) :
    List.zipWith (fun t m => Chunk.mk t m.page m.chunk_index m.total_chunks)
      (l.map Chunk.text)
      (l.map (fun c => ChunkMeta.mk c.page_number c.ordinal_index c.total_chunks))
      = l := by
  induction l with
  | nil => rfl
  | cons c rest ih => simp [ih]

/-- Helper: stateless-mode deserialization is a left inverse of
serialization on the chunk sequence. -/
theorem payloadChunks_serialize (s : DocumentSession) :
    payloadChunks (serializeSession s) = s.chunks :=
  zipWith_rebuild s.chunks

/-- C2: with the query embedding held fixed, server-resident and stateless
modes produce identical retrieval results — the same retrieved chunks in
the same order with the same relevance scores. -/
theorem claim_c2_mode_equivalence (s : DocumentSession) (q : List ℝ)
    (k : ℕ) :
    serverModeRetrieve (singletonStore s) s.document_id q k
      = some (statelessModeRetrieve (serializeSession s) q k) := by
  rw [serverModeRetrieve, statelessModeRetrieve, payloadChunks_serialize]
  simp only [singletonStore, if_pos, Option.map_some']
  rfl

/-- Helper: abort observed at the very next read delivers nothing. -/
theorem runStream_abort_zero (parse : List Char → Option StreamEvent)
    (chunks : List (List Char)) : runStream parse chunks (some 0) = [] := by
  cases chunks <;> rfl

/-- Helper: one step of the reading loop on a non-exhausted stream when no
abort is observed at this read. -/
theorem runStream_cons (parse : List Char → Option StreamEvent)
    (c : List Char) (rest : List (List Char)) (ab : Option ℕ)
    (h : ab ≠ some 0) :
    runStream parse (c :: rest) ab =
      (if (processChunk parse c).2
        then (processChunk parse c).1.map Callback.message ++ [Callback.complete]
        else (processChunk parse c).1.map Callback.message
          ++ runStream parse rest (ab.map Nat.pred)) := by
  cases ab with
  | none => rfl
  | some n =>
    cases n with
    | zero => exact absurd rfl h
    | succ m => rfl

/-- Helper: a chunk holding one encoded event delivers exactly that event
and then continues with the rest of the stream. -/
theorem runStream_encoded (parse : List Char → Option StreamEvent)
    (encode : StreamEvent → List Char) (events : List StreamEvent)
    (rest : List (List Char))
    (h : ∀ e ∈ events, processChunk parse (sseChunk (encode e)) = ([e], false)) :
    runStream parse (events.map (fun e => sseChunk (encode e)) ++ rest) none
      = events.map Callback.message ++ runStream parse rest none := by
  induction events with
  | nil => rfl
  | cons e es ih =>
    rw [List.map_cons, List.cons_append,
      runStream_cons parse _ _ none (by simp),
      h e (List.mem_cons_self e es)]
    simp only [Option.map_none']
    rw [ih (fun x hx => h x (List.mem_cons_of_mem e hx))]
    simp

/-- Helper: the `[DONE]` chunk alone completes the stream, for any parse
function. -/
theorem runStream_done_chunk (parse : List Char → Option StreamEvent) :
    runStream parse [sseChunk "[DONE]".toList] none = [Callback.complete] := by
  rfl

/-- C3: for every successful question, the delivered callback sequence is
the content events in backend-arrival order, then exactly one sources
event, then the completion callback — the sources event is never emitted
before the last content event nor interleaved among content events.  The
hypothesis states that the wire encoding round-trips through the client's
line processing. -/
theorem claim_c3_stream_order (parse : List Char → Option StreamEvent)
    (encode : StreamEvent → List Char) (tokens : List String)
    (srcs : List ChatSource)
    (h : ∀ e ∈ synthEvents tokens srcs,
      processChunk parse (sseChunk (encode e)) = ([e], false)) :
    runStream parse (sseStream encode (synthEvents tokens srcs)) none
      = (tokens.map (fun t => Callback.message
            (StreamEvent.mk StreamEventType.content (some t) none)))
        ++ [Callback.message (StreamEvent.mk StreamEventType.sources none (some srcs)),
            Callback.complete] := by
  rw [sseStream, runStream_encoded parse encode _ _ h, runStream_done_chunk,
    synthEvents, List.map_append, List.map_map, List.append_assoc]
  rfl

/-- Witness for C3: the spec §8 scenario — backend tokens A, B, C plus two
retrieved chunks yield exactly content(A), content(B), content(C),
sources, completion. -/
theorem claim_c3_stream_order_witness :
    runStream demoParse
        (sseStream demoEncode (synthEvents ["A", "B", "C"] demoSources)) none
      = [Callback.message evContentA, Callback.message evContentB,
         Callback.message evContentC, Callback.message evSources,
         Callback.complete] := by
  rw [claim_c3_stream_order demoParse demoEncode ["A", "B", "C"] demoSources
    (by decide)]
  rfl

/-- C6: once the caller's abort is observed, no further callback is
delivered — the run depends only on the reads before the abort point; in
particular, in a concrete stream of three content chunks, a sources chunk
and the terminal marker, aborting after the second read delivers exactly
content(A) and content(B): no third content event, no sources event and
no completion. -/
theorem claim_c6_cancellation :
    (∀ (parse : List Char → Option StreamEvent)
        (chunks : List (List Char)) (k : ℕ),
      runStream parse chunks (some k) = runStream parse (chunks.take k) (some k))
  ∧ runStream demoParse
        (sseStream demoEncode (synthEvents ["A", "B", "C"] demoSources))
        (some 2)
      = [Callback.message evContentA, Callback.message evContentB] := by
  constructor
  · intro parse chunks k
    induction k generalizing chunks with
    | zero => rw [runStream_abort_zero, List.take_zero, runStream_abort_zero]
    | succ n ih =>
      cases chunks with
      | nil => rfl
      | cons c rest =>
        rw [List.take_succ_cons,
          runStream_cons parse c rest (some (n + 1)) (by simp),
          runStream_cons parse c (rest.take n) (some (n + 1)) (by simp),
          Option.map_some']
        rw [Nat.pred_succ, ih]
  · decide

/-- C7: in stateless mode, a file id with no stored payload makes both
`sendMessage` and `streamChat` fail locally with the
session-data-missing error — the errored call produces no request — and
the server-side stateless load never reports not-found; a stored id
proceeds with the complete retained payload (chunks, embeddings,
chunk_metadata) resupplied in the request. -/
theorem claim_c7_session_data (stored : List (String × ProcessedPDF))
    (fid msg : String) (history : List ChatMessage) :
    (lookupStored stored fid = none →
        sendMessageModel stored fid msg history = Except.error sessionMissingMsg
      ∧ streamChatRequestModel stored fid msg history
          = Except.error sessionMissingMsg)
  ∧ (∀ pdf, lookupStored stored fid = some pdf →
        sendMessageModel stored fid msg history = Except.ok
          (StatelessChatRequest.mk msg pdf.chunks pdf.embeddings
            pdf.chunk_metadata history)
      ∧ streamChatRequestModel stored fid msg history = Except.ok
          (StatelessChatRequest.mk msg pdf.chunks pdf.embeddings
            pdf.chunk_metadata history))
  ∧ (∀ req, statelessServerLoad req ≠ LoadOutcome.notFound) := by
  refine ⟨fun h => ?_, fun pdf h => ?_, fun req => ?_⟩
  · rw [sendMessageModel, streamChatRequestModel, h]
    exact ⟨rfl, rfl⟩
  · rw [sendMessageModel, streamChatRequestModel, h]
    exact ⟨rfl, rfl⟩
  · rw [statelessServerLoad]
    exact fun hh => LoadOutcome.noConfusion hh

/-- Witness for C7: a missing id fails locally, a stored id resupplies the
payload, and the stateless load of a concrete request is not
not-found. -/
theorem claim_c7_session_data_witness :
    sendMessageModel [] "f1" "q" [] = Except.error sessionMissingMsg
  ∧ sendMessageModel [("f1", demoPDF)] "f1" "q" [] = Except.ok
      (StatelessChatRequest.mk "q" demoPDF.chunks demoPDF.embeddings
        demoPDF.chunk_metadata [])
  ∧ statelessServerLoad demoRequest ≠ LoadOutcome.notFound :=
  ⟨((claim_c7_session_data [] "f1" "q" []).1 rfl).1,
   ((claim_c7_session_data [("f1", demoPDF)] "f1" "q" []).2.1 demoPDF
      (by decide)).1,
   (claim_c7_session_data [] "f1" "q" []).2.2 demoRequest⟩

/-- C9: the upload handler rejects a file whose declared type is not
`application/pdf` or whose size exceeds 10MB, reporting an error and
issuing no upload request; with an API key present, a file of the
accepted type at or under the limit is submitted for processing. -/
theorem claim_c9_upload_validation (key : String) (f : UploadFile) :
    (f.type ≠ "application/pdf" →
        handleFileUpload (some key) f
          = UploadOutcome.err "Please select a PDF file")
  ∧ (f.type = "application/pdf" → f.size > maxUploadSize →
        handleFileUpload (some key) f
          = UploadOutcome.err "File size must be less than 10MB")
  ∧ (f.type = "application/pdf" → f.size ≤ maxUploadSize →
        handleFileUpload (some key) f = UploadOutcome.upload f) := by
  refine ⟨fun h => ?_, fun h hs => ?_, fun h hs => ?_⟩
  · simp [handleFileUpload, h]
  · simp [handleFileUpload, h, hs]
  · have hns : ¬ (f.size > maxUploadSize) := not_lt.mpr hs
    simp [handleFileUpload, h, hns]

/-- Witness for C9: a non-PDF file and an oversized PDF are rejected with
the respective errors; a 10MB PDF (exactly at the limit) is submitted. -/
theorem claim_c9_upload_validation_witness :
    handleFileUpload (some "k") (UploadFile.mk "text/plain" 5 "a.txt")
      = UploadOutcome.err "Please select a PDF file"
  ∧ handleFileUpload (some "k")
        (UploadFile.mk "application/pdf" (10 * 1024 * 1024 + 1) "b.pdf")
      = UploadOutcome.err "File size must be less than 10MB"
  ∧ handleFileUpload (some "k")
        (UploadFile.mk "application/pdf" (10 * 1024 * 1024) "c.pdf")
      = UploadOutcome.upload
          (UploadFile.mk "application/pdf" (10 * 1024 * 1024) "c.pdf") :=
  ⟨(claim_c9_upload_validation "k" (UploadFile.mk "text/plain" 5 "a.txt")).1
      (by decide),
   (claim_c9_upload_validation "k"
      (UploadFile.mk "application/pdf" (10 * 1024 * 1024 + 1) "b.pdf")).2.1
      (by decide) (by decide),
   (claim_c9_upload_validation "k"
      (UploadFile.mk "application/pdf" (10 * 1024 * 1024) "c.pdf")).2.2
      (by decide) (by decide)⟩

/-- C10: the stateless wrapper's `getFileStatus` is total and never reports
not-found: its status is always "completed"; a file id with no stored
payload yields the fabricated status (filename "Document", zero counts)
and a stored id yields that payload's filename and counts. -/
theorem claim_c10_file_status (stored : List (String × ProcessedPDF))
    (fid now : String) :
    ((getFileStatusModel stored fid now).status = "completed")
  ∧ (lookupStored stored fid = none →
      getFileStatusModel stored fid now
        = FileStatusResult.mk fid "completed" "Document" 0 0 now)
  ∧ (∀ pdf, lookupStored stored fid = some pdf →
      getFileStatusModel stored fid now
        = FileStatusResult.mk fid "completed" pdf.filename pdf.page_count
            pdf.chunk_count now) := by
  refine ⟨?_, fun h => ?_, fun pdf h => ?_⟩
  · rw [getFileStatusModel]
    cases lookupStored stored fid <;> rfl
  · rw [getFileStatusModel, h]
  · rw [getFileStatusModel, h]

/-- Witness for C10: the fabricated status for an unknown id and the
payload-derived status for a stored id, at concrete inputs. -/
theorem claim_c10_file_status_witness :
    getFileStatusModel [] "f1" "t0"
      = FileStatusResult.mk "f1" "completed" "Document" 0 0 "t0"
  ∧ getFileStatusModel [("f1", demoPDF)] "f1" "t0"
      = FileStatusResult.mk "f1" "completed" "paper.pdf" 2 3 "t0" :=
  ⟨(claim_c10_file_status [] "f1" "t0").2.1 rfl,
   (claim_c10_file_status [("f1", demoPDF)] "f1" "t0").2.2 demoPDF (by decide)⟩

/-- Helper: updating the trailing element of a list with an explicit last
element updates exactly that element. -/
theorem updateLast_append (f : ChatMessage → ChatMessage)
    (xs : List ChatMessage) (m : ChatMessage) :
    updateLast f (xs ++ [m]) = xs ++ [f m] := by
  induction xs with
  | nil => rfl
  | cons x rest ih =>
    rw [List.cons_append, updateLast]
    have hne : (rest ++ [m]).isEmpty = false := by
      cases rest <;> rfl
    rw [hne]
    simp only [Bool.false_eq_true, if_false]
    rw [ih, List.cons_append]

/-- Helper: updating the trailing element never changes the list in front
of it. -/
theorem updateLast_dropLast (f : ChatMessage → ChatMessage)
    (l : List ChatMessage) : (updateLast f l).dropLast = l.dropLast := by
  induction l with
  | nil => rfl
  | cons m rest ih =>
    rw [updateLast]
    cases rest with
    | nil => rfl
    | cons y ys =>
      have hne : (y :: ys : List ChatMessage).isEmpty = false := rfl
      rw [hne]
      simp only [Bool.false_eq_true, if_false]
      have h1 : updateLast f (y :: ys) ≠ [] := by
        rw [updateLast]
        cases ys with
        | nil => simp
        | cons z zs => simp
      rw [List.dropLast_cons_of_ne_nil h1,
        List.dropLast_cons_of_ne_nil (by simp : (y :: ys : List ChatMessage) ≠ []), ih]

/-- Helper: folding a successful question's events (content events in
order, then the sources event) over a state whose trailing message is the
in-flight assistant turn appends the streamed text to that turn and
attaches the sources to it, touching nothing else; the streaming flag is
untouched by events. -/
theorem runEvents_synth (tokens : List String) (srcs : List ChatSource) :
    ∀ (st : ChatState) (xs : List ChatMessage) (acc : String)
      (s0 : Option (List ChatSource)),
    st.messages = xs ++ [ChatMessage.mk ChatRole.assistant acc s0] →
    (runEvents st (synthEvents tokens srcs)).messages
        = xs ++ [ChatMessage.mk ChatRole.assistant (acc ++ concatTokens tokens)
            (some srcs)]
    ∧ (runEvents st (synthEvents tokens srcs)).isStreaming = st.isStreaming := by
  induction tokens with
  | nil =>
    intro st xs acc s0 hmsg
    rw [synthEvents, List.map_nil, List.nil_append, runEvents, List.foldl_cons,
      List.foldl_nil]
    rw [handleEvent]
    simp only
    rw [hmsg, updateLast_append]
    refine ⟨?_, trivial⟩
    simp [concatTokens]
  | cons t ts ih =>
    intro st xs acc s0 hmsg
    have hsplit : synthEvents (t :: ts) srcs
        = StreamEvent.mk StreamEventType.content (some t) none
          :: synthEvents ts srcs := by
      rw [synthEvents, synthEvents, List.map_cons, List.cons_append]
    rw [hsplit, runEvents, List.foldl_cons]
    have hmid : (handleEvent st (StreamEvent.mk StreamEventType.content (some t) none)).messages
        = xs ++ [ChatMessage.mk ChatRole.assistant (acc ++ t) s0] := by
      rw [handleEvent]
      simp only
      rw [hmsg, updateLast_append]
      simp
    have hstr : (handleEvent st (StreamEvent.mk StreamEventType.content (some t) none)).isStreaming
        = st.isStreaming := by
      rw [handleEvent]
    have hrec := ih (handleEvent st (StreamEvent.mk StreamEventType.content (some t) none))
      xs (acc ++ t) s0 hmid
    rw [runEvents] at hrec
    refine ⟨?_, ?_⟩
    · rw [hrec.1, concatTokens, String.append_assoc]
    · rw [hrec.2, hstr]

/-- C8: the history supplied to a question call is only read — the request
carries exactly the caller's prior message list, stream events never
modify any message in front of the trailing in-flight assistant turn, and
after a question completes, the next question's history is exactly the
turns completed so far: the prior history plus the finished (question,
produced answer, citations) turn, and never the in-flight question
itself. -/
theorem claim_c8_history (fid key input1 input2 : String) (st : ChatState)
    (tokens : List String) (srcs : List ChatSource)
    (h1 : ¬ jsTrim input1 = "") (h2 : st.isStreaming = false)
    (h3 : ¬ jsTrim input2 = "") :
    ((handleSubmit fid (some key) input1 st).2
        = some (ChatRequest.mk fid (jsTrim input1) st.messages))
  ∧ ((handleSubmit fid (some key) input2
        (completeQuestion
          (runEvents (handleSubmit fid (some key) input1 st).1
            (synthEvents tokens srcs)))).2
      = some (ChatRequest.mk fid (jsTrim input2)
          (st.messages
            ++ [ChatMessage.mk ChatRole.user (jsTrim input1) none,
                ChatMessage.mk ChatRole.assistant (concatTokens tokens)
                  (some srcs)])))
  ∧ (∀ s e, (handleEvent s e).messages.dropLast = s.messages.dropLast) := by
  have hc1 : ¬ (jsTrim input1 = "" ∨ (some key : Option String) = none
      ∨ st.isStreaming = true) := by
    simp [h1, h2]
  have hs1 : handleSubmit fid (some key) input1 st
      = (ChatState.mk
          (st.messages ++ [ChatMessage.mk ChatRole.user (jsTrim input1) none,
            ChatMessage.mk ChatRole.assistant "" (some [])])
          true [] none,
        some (ChatRequest.mk fid (jsTrim input1) st.messages)) := by
    rw [handleSubmit, if_neg hc1]
  have hmid := runEvents_synth tokens srcs
    (handleSubmit fid (some key) input1 st).1
    (st.messages ++ [ChatMessage.mk ChatRole.user (jsTrim input1) none])
    "" (some [])
    (by rw [hs1]; simp)
  have hcomp : (completeQuestion
      (runEvents (handleSubmit fid (some key) input1 st).1
        (synthEvents tokens srcs))).messages
      = st.messages
        ++ [ChatMessage.mk ChatRole.user (jsTrim input1) none,
            ChatMessage.mk ChatRole.assistant (concatTokens tokens)
              (some srcs)] := by
    rw [completeQuestion]
    simp only
    rw [hmid.1]
    simp
  have hc2 : ¬ (jsTrim input2 = "" ∨ (some key : Option String) = none
      ∨ (completeQuestion
          (runEvents (handleSubmit fid (some key) input1 st).1
            (synthEvents tokens srcs))).isStreaming = true) := by
    simp [h3, completeQuestion]
  refine ⟨by rw [hs1], ?_, ?_⟩
  · rw [handleSubmit, if_neg hc2]
    simp only
    rw [hcomp]
  · intro s e
    obtain ⟨ty, co, so⟩ := e
    cases ty <;> simp [handleEvent, updateLast_dropLast]

/-- Witness for C8: the two-question scenario at concrete inputs — the
first request's history is the empty prior list, and the second request's
history is exactly the completed first turn. -/
theorem claim_c8_history_witness :
    ((handleSubmit "f1" (some "k") " hello " (ChatState.mk [] false [] none)).2
        = some (ChatRequest.mk "f1" (jsTrim " hello ")
            (ChatState.mk [] false [] none).messages))
  ∧ ((handleSubmit "f1" (some "k") "next"
        (completeQuestion
          (runEvents
            (handleSubmit "f1" (some "k") " hello "
              (ChatState.mk [] false [] none)).1
            (synthEvents ["A", "B"] demoSources)))).2
      = some (ChatRequest.mk "f1" (jsTrim "next")
          ((ChatState.mk [] false [] none).messages
            ++ [ChatMessage.mk ChatRole.user (jsTrim " hello ") none,
                ChatMessage.mk ChatRole.assistant (concatTokens ["A", "B"])
                  (some demoSources)])))
  ∧ (∀ s e, (handleEvent s e).messages.dropLast = s.messages.dropLast) :=
  claim_c8_history "f1" "k" " hello " "next" (ChatState.mk [] false [] none)
    ["A", "B"] demoSources (by decide) rfl (by decide)
